import Mathlib

/-!
Verification development for the import-normalization pipeline of the
areman-dj repository, shallowly embedded from:

  - apps/imports/services/transform_utils.py   (apply_transform)
  - apps/imports/services/mapping_engine.py    (make_json_safe, apply_mapping)
  - apps/imports/services/merge_defaults.py    (load_defaults, merge_defaults)
  - apps/imports/services/defaults.py          (get_active_default_set, build_base_dict)
  - apps/imports/management/commands/normalize_records.py (Command.handle)

Python JSON-ish values are modelled by the inductive `Value`; Python dicts
by association lists with insertion-order-preserving overwrite
(`dictInsert`), matching CPython dict semantics.  Python `Decimal` and
`float` are both modelled as exact rationals (`Rat`), tagged by distinct
constructors; floating-point rounding and the shortest-repr of `str(float)`
are abstracted (no claim here depends on them).  Dates/instants are
modelled as natural numbers (e.g. 20250601), ordered as the real dates are.
Exceptions are modelled by `Except PyExc`.
-/

set_option autoImplicit false

/-- Python exception kinds relevant to the embedded code. -/
inductive PyExc where
  | typeError
  | valueError
  | invalidOperation
  | runtimeError (msg : String)
  | commandError (msg : String)
  deriving DecidableEq, Repr

/-- A JSON-ish Python value as it occurs in payloads and normalized dicts.
`vdec` is `decimal.Decimal`, `vfloat` is a Python float; both carry an
exact rational. -/
inductive Value where
  | vnone
  | vbool (b : Bool)
  | vint (n : Int)
  | vfloat (q : Rat)
  | vdec (q : Rat)
  | vstr (s : String)
  | vlist (l : List Value)
  | vdict (l : List (String × Value))
  deriving Repr

/-- A Python dict of values: association list, first occurrence of a key is
its binding (keys are kept unique by `dictInsert`). -/
abbrev PyDict := List (String × Value)

/-- `d[k]` lookup returning `Option`. -/
def dictGet {α : Type} (d : List (String × α)) (k : String) : Option α :=
  (d.find? (fun p => p.1 == k)).map (fun p => p.2)

/-- `d[k] = v` with CPython semantics: overwrite in place if the key is
present, append otherwise. -/
def dictInsert {α : Type} (d : List (String × α)) (k : String) (v : α) :
    List (String × α) :=
  if d.any (fun p => p.1 == k) then
    d.map (fun p => if p.1 == k then (k, v) else p)
  else
    d ++ [(k, v)]

/-- `d.update(kvs)`: insert every pair of `kvs` in order. -/
def dictUpdateAll {α : Type} (d kvs : List (String × α)) : List (String × α) :=
  kvs.foldl (fun acc p => dictInsert acc p.1 p.2) d

/-- Keys of a dict, in order. -/
def dictKeys {α : Type} (d : List (String × α)) : List String :=
  d.map (fun p => p.1)

/-- Python truthiness `bool(value)` for the modelled values. -/
def truthy : Value → Bool
  | .vnone => false
  | .vbool b => b
  | .vint n => n != 0
  | .vfloat q => q != 0
  | .vdec q => q != 0
  | .vstr s => s != ""
  | .vlist l => !l.isEmpty
  | .vdict l => !l.isEmpty

/-- Python `value in (None, "")` (equality against `None` and the empty
string; no other modelled value compares equal to either). -/
def isNoneOrEmpty : Value → Bool
  | .vnone => true
  | .vstr s => s == ""
  | _ => false

/-- Python `str.strip()`: drop leading and trailing whitespace.  (Defined
on the character list so it reduces definitionally.) -/
def pyStrip (s : String) : String :=
  String.mk (((s.toList.dropWhile Char.isWhitespace).reverse.dropWhile
    Char.isWhitespace).reverse)

/-- Python `str.lower()` (ASCII case folding). -/
def pyLower (s : String) : String :=
  String.mk (s.toList.map Char.toLower)

/-- Python `str.upper()` (ASCII case folding). -/
def pyUpper (s : String) : String :=
  String.mk (s.toList.map Char.toUpper)

/-- Digits to a natural number (helper for the numeric-literal parsers). -/
def digitsToNat (cs : List Char) : Nat :=
  cs.foldl (fun acc c => acc * 10 + (c.toNat - 48)) 0

/-- Python `int(s)` on a string: strip whitespace, optional sign, decimal
digits; `none` models `ValueError`.  (Underscore digit separators of
Python numeric literals are not modelled.) -/
def parseIntStr (s : String) : Option Int :=
  let cs := (pyStrip s).toList
  let signRest : Int × List Char :=
    match cs with
    | '+' :: r => (1, r)
    | '-' :: r => (-1, r)
    | r => (1, r)
  let sign := signRest.1
  let rest := signRest.2
  if rest.isEmpty then none
  else if rest.all (fun c => c.isDigit) then some (sign * (digitsToNat rest : Int))
  else none

/-- Split a character list at the first occurrence of `e`/`E`
(mantissa, exponent part if any). -/
def splitExp (cs : List Char) : List Char × Option (List Char) :=
  match cs.span (fun c => c != 'e' && c != 'E') with
  | (m, []) => (m, none)
  | (m, _ :: r) => (m, some r)

/-- Parse the digits-with-at-most-one-point mantissa of a decimal literal:
returns (unscaled integer digits value, number of fractional digits). -/
def parseMantissa (cs : List Char) : Option (Nat × Nat) :=
  match cs.span (fun c => c != '.') with
  | (ip, []) =>
      if ip.isEmpty then none
      else if ip.all (fun c => c.isDigit) then some (digitsToNat ip, 0) else none
  | (ip, _ :: fp) =>
      if fp.any (fun c => c == '.') then none
      else if ip.isEmpty && fp.isEmpty then none
      else if ip.all (fun c => c.isDigit) && fp.all (fun c => c.isDigit) then
        some (digitsToNat (ip ++ fp), fp.length)
      else none

/-- Python `Decimal(s)`: strip whitespace, optional sign, digit mantissa
with optional point, optional exponent; `none` models `InvalidOperation`.
(The special values NaN/Infinity accepted by `Decimal` are not modelled;
no embedded code path constructs them.) -/
def parseDecStr (s : String) : Option Rat :=
  let cs := (pyStrip s).toList
  let signRest : Rat × List Char :=
    match cs with
    | '+' :: r => (1, r)
    | '-' :: r => (-1, r)
    | r => (1, r)
  let sign := signRest.1
  match splitExp signRest.2 with
  | (mant, expPart) =>
    match parseMantissa mant with
    | none => none
    | some (m, frac) =>
      let base : Rat := sign * ((m : Rat) / ((10 : Rat) ^ frac))
      match expPart with
      | none => some base
      | some ecs =>
        match parseIntStr (String.mk ecs) with
        | none => none
        | some e =>
          if ecs.any (fun c => c == '.') then none
          else if e ≥ 0 then some (base * (10 : Rat) ^ e.toNat)
          else some (base / (10 : Rat) ^ (-e).toNat)

/-- Truncation of a rational toward zero, as Python `int(float)` /
`int(Decimal)` do. -/
def ratTrunc (q : Rat) : Int :=
  Int.tdiv q.num (q.den : Int)

/-- Render a rational as a decimal string when its denominator divides a
power of ten (the only rationals the embedded code produces), falling back
to `num/den` otherwise.  Models the numeric text of `str(Decimal)` /
`str(float)` up to trailing-zero normalization. -/
def ratDecimalRepr (q : Rat) : String :=
  let n := q.num.natAbs
  let d := q.den
  let signStr := if q.num < 0 then "-" else ""
  match (List.range 65).find? (fun k => 10 ^ k % d == 0) with
  | some k =>
      let scaled := n * (10 ^ k / d)
      if k = 0 then signStr ++ toString scaled
      else
        let s := toString scaled
        let s := if s.length ≤ k then String.mk (List.replicate (k + 1 - s.length) '0') ++ s else s
        signStr ++ s.dropRight k ++ "." ++ s.takeRight k
  | none => signStr ++ toString n ++ "/" ++ toString d

mutual
/-- Python `str(value)` for the modelled values. String quoting/escaping
inside container reprs is approximated (no claim inspects it). -/
def pyStr : Value → String
  | .vnone => "None"
  | .vbool b => if b then "True" else "False"
  | .vint n => toString n
  | .vfloat q => ratDecimalRepr q
  | .vdec q => ratDecimalRepr q
  | .vstr s => s
  | .vlist l => "[" ++ pyReprList l ++ "]"
  | .vdict l => "\x7b" ++ pyReprKVs l ++ "\x7d"

/-- Python `repr(value)`, as used for elements inside container `str`; it
coincides with `str` except on strings, which get quoted. -/
def pyRepr : Value → String
  | .vnone => "None"
  | .vbool b => if b then "True" else "False"
  | .vint n => toString n
  | .vfloat q => ratDecimalRepr q
  | .vdec q => ratDecimalRepr q
  | .vstr s => "\x27" ++ s ++ "\x27"
  | .vlist l => "[" ++ pyReprList l ++ "]"
  | .vdict l => "\x7b" ++ pyReprKVs l ++ "\x7d"

def pyReprList : List Value → String
  | [] => ""
  | [v] => pyRepr v
  | v :: vs => pyRepr v ++ ", " ++ pyReprList vs

def pyReprKVs : List (String × Value) → String
  | [] => ""
  | [(k, v)] => "\x27" ++ k ++ "\x27: " ++ pyRepr v
  | (k, v) :: r => "\x27" ++ k ++ "\x27: " ++ pyRepr v ++ ", " ++ pyReprKVs r
end

/-- Python `int(value)`: `TypeError` for None/list/dict, `ValueError` for a
non-numeric string, truncation for float/Decimal, 0/1 for bool. -/
def pyInt : Value → Except PyExc Int
  | .vnone => .error .typeError
  | .vbool b => .ok (if b then 1 else 0)
  | .vint n => .ok n
  | .vfloat q => .ok (ratTrunc q)
  | .vdec q => .ok (ratTrunc q)
  | .vstr s =>
      match parseIntStr s with
      | some n => .ok n
      | none => .error .valueError
  | .vlist _ => .error .typeError
  | .vdict _ => .error .typeError

/-- Python `Decimal(str(value))`: exact for numeric values (whose `str`
round-trips), `InvalidOperation` (modelled as an error) otherwise. -/
def pyDecimalOfStr : Value → Except PyExc Rat
  | .vint n => .ok (n : Rat)
  | .vfloat q => .ok q
  | .vdec q => .ok q
  | .vstr s =>
      match parseDecStr s with
      | some q => .ok q
      | none => .error .invalidOperation
  | _ => .error .invalidOperation

/-- The truthy-string rule shared by the bool transform and bool coercion:
`value.strip().lower() in ("1", "true", "yes", "y")`. -/
def strTruthy (s : String) : Bool :=
  ["1", "true", "yes", "y"].contains (pyLower (pyStrip s))

/-- Embedding of `apply_transform` (transform_utils.py).  The transform is
identified by its code string (`None` maps to `none`).  The Python body
wraps its dispatch in `try: ... except (ValueError, InvalidOperation):
return None`, so those two exception kinds degrade to `None` while any
other exception (the `TypeError` of `int` on a list/dict) propagates. -/
def apply_transform (value : Value) (transform : Option String) : Except PyExc Value :=
  match transform with
  | none => .ok value
  | some code =>
    if code == "uppercase" then
      .ok (match value with | .vnone => .vnone | v => .vstr (pyUpper (pyStr v)))
    else if code == "lowercase" then
      .ok (match value with | .vnone => .vnone | v => .vstr (pyLower (pyStr v)))
    else if code == "strip" then
      .ok (match value with | .vnone => .vnone | v => .vstr (pyStrip (pyStr v)))
    else if code == "int" then
      if isNoneOrEmpty value then .ok .vnone
      else
        match pyInt value with
        | .ok n => .ok (.vint n)
        | .error .valueError => .ok .vnone
        | .error e => .error e
    else if code == "decimal" then
      if isNoneOrEmpty value then .ok .vnone
      else
        match pyDecimalOfStr value with
        | .ok q => .ok (.vdec q)
        | .error _ => .ok .vnone
    else if code == "bool" then
      match value with
      | .vbool b => .ok (.vbool b)
      | .vstr s => .ok (.vbool (strTruthy s))
      | v => .ok (.vbool (truthy v))
    else
      .ok value

/-- One `ImportMapDetail` row: (map_set FK elided), source_path,
target_path, target datatype code, optional transform code, required
flag. -/
structure ImportMapDetail where
  source_path : String
  target_path : String
  target_datatype : String
  transform : Option String
  is_required : Bool
  deriving Repr

/-- One `ImportMapSet` row together with its `map_details` relation.
`valid_from` is a date; supplier / source_type / organization are the
scoping references. -/
structure ImportMapSet where
  id : Nat
  organization : Nat
  supplier : Nat
  source_type : String
  valid_from : Nat
  map_details : List ImportMapDetail
  deriving Repr

/-- The datatype-enforcement step of `apply_mapping` (the `try`/`except
Exception` block): total, catches every exception.  Note the int/decimal
branches are guarded by `value not in (None, "")`, so `None` — and the
empty string — pass through unchanged there. -/
def coerceInt (value : Value) : Value :=
  if isNoneOrEmpty value then value
  else match pyInt value with
    | .ok n => .vint n
    | .error _ => .vnone

def coerceDecimal (value : Value) : Value :=
  if isNoneOrEmpty value then value
  else match pyDecimalOfStr value with
    | .ok q => .vdec q
    | .error _ => .vnone

def coerceBool (value : Value) : Value :=
  match value with
  | .vstr s => .vbool (strTruthy s)
  | .vnone => .vnone
  | v => .vbool (truthy v)

def coerceStr (value : Value) : Value :=
  match value with
  | .vnone => .vnone
  | v => .vstr (pyStr v)

def coerceDatatype (dt_code : String) (value : Value) : Value :=
  if dt_code == "int" then coerceInt value
  else if dt_code == "decimal" then coerceDecimal value
  else if dt_code == "bool" then coerceBool value
  else if dt_code == "str" then coerceStr value
  else value

/-- The `if detail.transform:` guard of `apply_mapping`: Python
truthiness means an empty transform string is skipped like `None`;
otherwise `apply_transform` runs. -/
def transformStep (raw : Value) : Option String → Except PyExc Value
  | some t => if t == "" then .ok raw else apply_transform raw (some t)
  | none => .ok raw

/-- Per-rule value computation of `apply_mapping`: read
`payload.get(source_path)`, apply the optional transform, then enforce the
target datatype.  Only the transform step can raise. -/
def processDetailValue (payload : PyDict) (d : ImportMapDetail) : Except PyExc Value :=
  match transformStep ((dictGet payload d.source_path).getD .vnone) d.transform with
  | .error e => .error e
  | .ok v => .ok (coerceDatatype d.target_datatype v)

/-- The rule loop of `apply_mapping`: `normalized[detail.target_path] =
value` for each detail in order. -/
def applyDetails (payload : PyDict) (acc : PyDict) :
    List ImportMapDetail → Except PyExc PyDict
  | [] => .ok acc
  | d :: rest =>
    match processDetailValue payload d with
    | .error e => .error e
    | .ok v => applyDetails payload (dictInsert acc d.target_path v) rest

mutual
/-- The recursive `convert` of `make_json_safe`: `Decimal → float`,
dicts/lists recursed, everything else passed through.  (The set-to-list
branch has no counterpart: JSON payloads contain no sets.) -/
def convertJson : Value → Value
  | .vdec q => .vfloat q
  | .vdict l => .vdict (convertJsonKVs l)
  | .vlist l => .vlist (convertJsonList l)
  | v => v

def convertJsonList : List Value → List Value
  | [] => []
  | v :: vs => convertJson v :: convertJsonList vs

def convertJsonKVs : List (String × Value) → List (String × Value)
  | [] => []
  | (k, v) :: r => (k, convertJson v) :: convertJsonKVs r
end

/-- Embedding of `make_json_safe` (mapping_engine.py). -/
def make_json_safe (d : PyDict) : PyDict :=
  d.map (fun p => (p.1, convertJson p.2))

/-- Embedding of `apply_mapping` (mapping_engine.py): run the rules, then
make the result JSON-safe.  An exception escaping a rule's transform
propagates (the per-rule `try` covers only datatype enforcement). -/
def apply_mapping (payload : PyDict) (map_set : ImportMapSet) : Except PyExc PyDict :=
  match applyDetails payload [] map_set.map_details with
  | .error e => .error e
  | .ok normalized => .ok (make_json_safe normalized)

/-- One `ImportGlobalDefaultLine` row (transform/required/datatype fields
are not read by the embedded consumers and are elided). -/
structure ImportGlobalDefaultLine where
  target_path : String
  default_value : Value
  deriving Repr

/-- One `ImportGlobalDefaultSet` row with its `global_default_lines`. -/
structure ImportGlobalDefaultSet where
  organization : Nat
  valid_from : Nat
  lines : List ImportGlobalDefaultLine
  deriving Repr

/-- `order_by("-valid_from").first()`: the element with the greatest key,
the earliest such element on a tie (tie order is DB-unspecified; the
uniqueness constraints make ties impossible within one scope). -/
def pickNewest {α : Type} (f : α → Nat) : List α → Option α
  | [] => none
  | x :: xs =>
    match pickNewest f xs with
    | none => some x
    | some y => if f y > f x then some y else some x

/-- One `ImportRun` row (fields the command reads). -/
structure ImportRun where
  id : Nat
  supplier : Nat
  source_type : String
  map_set : Option Nat
  deriving Repr

/-- One `ImportRawRecord` row (fields the command reads/writes). -/
structure ImportRawRecord where
  id : Nat
  import_run : Nat
  line_number : Nat
  payload : PyDict
  normalized_data : Option PyDict
  error_message_product_import : Option String
  deriving Repr

/-- The relational tables the command touches, as lists of rows. -/
structure Db where
  suppliers : List Nat
  runs : List ImportRun
  records : List ImportRawRecord
  map_sets : List ImportMapSet
  default_sets : List ImportGlobalDefaultSet
  deriving Repr

/-- Embedding of `load_defaults` (merge_defaults.py): newest applicable
default set (`valid_from <= today`) expanded to a flat
`{target_path: default_value}` dict; an org with no applicable set
yields the EMPTY dict (no exception). -/
def load_defaults (org : Nat) (today : Nat) (db : Db) : PyDict :=
  match pickNewest (fun s => s.valid_from)
      (db.default_sets.filter (fun s => s.organization == org && s.valid_from ≤ today)) with
  | none => []
  | some ds => ds.lines.foldl (fun acc line => dictInsert acc line.target_path line.default_value) []

/-- Embedding of `merge_defaults` (merge_defaults.py): defaults first,
`data` overwrites. -/
def merge_defaults (data : PyDict) (org : Nat) (today : Nat) (db : Db) : PyDict :=
  dictUpdateAll (load_defaults org today db) data

/-- Embedding of `get_active_default_set` (defaults.py). -/
def get_active_default_set (db : Db) (today : Nat) (org_id : Nat) :
    Option ImportGlobalDefaultSet :=
  pickNewest (fun s => s.valid_from)
    (db.default_sets.filter (fun s => s.organization == org_id && s.valid_from ≤ today))

/-- Python `"." in path` (defined on the character list so it reduces
definitionally). -/
def hasDot (s : String) : Bool :=
  s.toList.any (fun c => c == '.')

/-- `target_path.split(".", 1)`: the text before the first dot and
everything after it. -/
def splitFirstDot (s : String) : String × String :=
  match s.toList.span (fun c => c != '.') with
  | (pre, []) => (String.mk pre, "")
  | (pre, _ :: post) => (String.mk pre, String.mk post)

/-- The (section, key) a `build_base_dict` line lands at: before/after the
first dot, or ("product", whole path) when there is no dot. -/
def lineSection (line : ImportGlobalDefaultLine) : String × String :=
  if !hasDot line.target_path then ("product", line.target_path)
  else splitFirstDot line.target_path

/-- One line-placement step of `build_base_dict`:
`base.setdefault(section, empty); base[section][key] = value`. -/
def placeLine (base : List (String × PyDict)) (line : ImportGlobalDefaultLine) :
    List (String × PyDict) :=
  let sk := lineSection line
  let cur := (dictGet base sk.1).getD []
  dictInsert base sk.1 (dictInsert cur sk.2 line.default_value)

/-- Embedding of `build_base_dict` (defaults.py): raises `RuntimeError`
when no applicable set exists, otherwise expands the lines over the five
pre-seeded empty sections. -/
def build_base_dict (db : Db) (today : Nat) (org_id : Nat) :
    Except PyExc (List (String × PyDict)) :=
  match get_active_default_set db today org_id with
  | none => .error (.runtimeError ("No ImportGlobalDefaultSet found for org_id=" ++ toString org_id))
  | some ds =>
    let base : List (String × PyDict) :=
      [("product", []), ("variant", []), ("price", []), ("supplier", []), ("supplier_product", [])]
    .ok (ds.lines.foldl placeLine base)

/-- Human-readable text of a modelled exception (used for the
`"Normalization error: {e}"` message). -/
def pyExcMsg : PyExc → String
  | .typeError => "TypeError"
  | .valueError => "ValueError"
  | .invalidOperation => "InvalidOperation"
  | .runtimeError m => m
  | .commandError m => m

/-- The map-set resolution of `Command.handle`: newest `ImportMapSet` for
the run's (supplier, source_type) — `order_by("-valid_from").first()`,
with NO `valid_from` bound. -/
def resolve_map_set (map_sets : List ImportMapSet) (run : ImportRun) :
    Option ImportMapSet :=
  pickNewest (fun s => s.valid_from)
    (map_sets.filter (fun s => s.supplier == run.supplier && s.source_type == run.source_type))

/-- Per-record body of the `for rec in raw_records` loop: defaults first,
mapping on top (`normalized.update(mapped)`); on success store the merged
dict and clear the error field, on any exception record the error message
and leave `normalized_data` as it is. -/
def normalizeRecord (db : Db) (today : Nat) (ms : ImportMapSet)
    (rec : ImportRawRecord) : ImportRawRecord :=
  match apply_mapping rec.payload ms with
  | .ok mapped =>
      { rec with
        normalized_data := some (dictUpdateAll (load_defaults ms.organization today db) mapped)
        error_message_product_import := none }
  | .error e =>
      { rec with
        error_message_product_import := some ("Normalization error: " ++ pyExcMsg e) }

/-- Whether a record's normalization succeeds (its `apply_mapping` does not
raise; `load_defaults` never raises). -/
def recordOk (ms : ImportMapSet) (rec : ImportRawRecord) : Bool :=
  match apply_mapping rec.payload ms with
  | .ok _ => true
  | .error _ => false

/-- Whether a record is selected by
`filter(import_run=run, normalized_data__isnull=True)`. -/
def recordTargeted (run : ImportRun) (rec : ImportRawRecord) : Bool :=
  rec.import_run == run.id && rec.normalized_data.isNone

/-- Processing of one run inside `Command.handle`: resolve the newest
mapping (CommandError if none — fatal), bind it on the run, then normalize
every record of the run with NULL `normalized_data`, returning the new
state and the (success, error) counts.  Batched `bulk_update` flushes are
modelled as the final record state (batching only affects crash points). -/
def bindMapSet (db : Db) (runId msId : Nat) : Db :=
  { db with runs := db.runs.map (fun r => if r.id == runId then { r with map_set := some msId } else r) }

def processRun (db : Db) (today : Nat) (run : ImportRun) :
    Except PyExc (Db × Nat × Nat) :=
  match resolve_map_set db.map_sets run with
  | none =>
      .error (.commandError ("No ImportMapSet found for supplier=" ++ toString run.supplier
        ++ ", source_type=" ++ run.source_type))
  | some ms =>
    .ok ({ bindMapSet db run.id ms.id with
            records := (bindMapSet db run.id ms.id).records.map
              (fun rec => if recordTargeted run rec then
                normalizeRecord (bindMapSet db run.id ms.id) today ms rec else rec) },
         ((bindMapSet db run.id ms.id).records.filter (recordTargeted run)).countP
           (fun rec => recordOk ms rec),
         ((bindMapSet db run.id ms.id).records.filter (recordTargeted run)).countP
           (fun rec => !recordOk ms rec))

/-- The `for run in runs` loop: a CommandError aborts everything (the whole
handler runs in one atomic transaction, so an abort leaves no partial
state — modelled by the error carrying no Db); otherwise counts are
accumulated as (runs, successes, errors). -/
def processRuns (today : Nat) : Db → List ImportRun → Except PyExc (Db × Nat × Nat × Nat)
  | db, [] => .ok (db, 0, 0, 0)
  | db, run :: rest =>
    match processRun db today run with
    | .error e => .error e
    | .ok (db1, s, e) =>
      match processRuns today db1 rest with
      | .error e2 => .error e2
      | .ok (db2, tr, ts, te) => .ok (db2, tr + 1, s + ts, e + te)

/-- The reset of the `--run-id` branch:
`filter(import_run=run).update(normalized_data=None,
error_message_product_import=None)`. -/
def resetRunRecords (db : Db) (rid : Nat) : Db :=
  { db with records := db.records.map (fun rec =>
      if rec.import_run == rid then
        { rec with normalized_data := none, error_message_product_import := none }
      else rec) }

/-- Embedding of `Command.handle` (normalize_records.py).  `run_id` takes
precedence: look the run up (CommandError if absent), reset its records,
process just that run.  Otherwise the supplier is required and must exist,
and the runs with unbound `map_set` are processed; when there are none the
command returns with only a warning printed. -/
def handle (db : Db) (today : Nat) (run_id : Option Nat) (supplier_code : Option Nat) :
    Except PyExc (Db × Nat × Nat × Nat) :=
  match run_id with
  | some rid =>
    match db.runs.find? (fun r => r.id == rid) with
    | none => .error (.commandError ("ImportRun " ++ toString rid ++ " not found"))
    | some run => processRuns today (resetRunRecords db rid) [run]
  | none =>
    match supplier_code with
    | none => .error (.commandError "You must provide either --supplier or --run-id")
    | some sc =>
      if db.suppliers.contains sc then
        let runs := db.runs.filter (fun r => r.supplier == sc && r.map_set.isNone)
        if runs.isEmpty then .ok (db, 0, 0, 0)
        else processRuns today db runs
      else .error (.commandError ("Supplier " ++ toString sc ++ " not found"))

section DictLemmas

variable {α : Type}

theorem find?_map_replace (d : List (String × α)) (k : String) (v : α)
    (h : d.any (fun p => p.1 == k) = true) :
    (d.map (fun p => if p.1 == k then (k, v) else p)).find? (fun p => p.1 == k)
      = some (k, v) := by
  induction d with
  | nil => simp at h
  | cons p t ih =>
    simp only [List.map_cons]
    by_cases hp : (p.1 == k) = true
    · rw [if_pos hp]
      simp [List.find?_cons]
    · have hp' : (p.1 == k) = false := Bool.eq_false_iff.mpr hp
      rw [if_neg hp]
      simp only [List.find?_cons, hp']
      apply ih
      simpa [hp'] using h

theorem find?_map_replace_ne (d : List (String × α)) (k k' : String) (v : α)
    (hne : k' ≠ k) :
    (d.map (fun p => if p.1 == k then (k, v) else p)).find? (fun p => p.1 == k')
      = d.find? (fun p => p.1 == k') := by
  induction d with
  | nil => rfl
  | cons p t ih =>
    simp only [List.map_cons]
    by_cases hp : (p.1 == k) = true
    · have hpk : p.1 = k := eq_of_beq hp
      have h1 : (k == k') = false := beq_eq_false_iff_ne.mpr (Ne.symm hne)
      have h2 : (p.1 == k') = false := by rw [hpk]; exact h1
      rw [if_pos hp]
      simp only [List.find?_cons, h1, h2]
      exact ih
    · rw [if_neg hp]
      simp only [List.find?_cons]
      cases hq : (p.1 == k') with
      | true => rfl
      | false => exact ih

theorem dictGet_dictInsert_self (d : List (String × α)) (k : String) (v : α) :
    dictGet (dictInsert d k v) k = some v := by
  unfold dictGet dictInsert
  by_cases h : d.any (fun p => p.1 == k) = true
  · rw [if_pos h, find?_map_replace d k v h]; rfl
  · rw [if_neg h, List.find?_append]
    have hnone : d.find? (fun p => p.1 == k) = none := by
      rw [List.find?_eq_none]
      intro x hx hpx
      exact h (List.any_eq_true.mpr ⟨x, hx, hpx⟩)
    rw [hnone]
    simp [List.find?_cons]

theorem dictGet_dictInsert_ne (d : List (String × α)) (k k' : String) (v : α)
    (hne : k' ≠ k) :
    dictGet (dictInsert d k v) k' = dictGet d k' := by
  unfold dictGet dictInsert
  by_cases h : d.any (fun p => p.1 == k) = true
  · rw [if_pos h, find?_map_replace_ne d k k' v hne]
  · rw [if_neg h, List.find?_append]
    have h1 : ((k, v).1 == k') = false := beq_eq_false_iff_ne.mpr (Ne.symm hne)
    simp only [List.find?_cons, h1, List.find?_nil]
    cases d.find? (fun p => p.1 == k') <;> rfl

theorem dictKeys_dictInsert_of_any (d : List (String × α)) (k : String) (v : α)
    (h : d.any (fun p => p.1 == k) = true) :
    dictKeys (dictInsert d k v) = dictKeys d := by
  unfold dictKeys dictInsert
  rw [if_pos h, List.map_map]
  apply List.map_congr_left
  intro p _
  by_cases hp : (p.1 == k) = true
  · have hpk : p.1 = k := eq_of_beq hp
    simp [Function.comp, hp, hpk]
  · simp [Function.comp, hp]

theorem dictKeys_dictInsert_of_not_any (d : List (String × α)) (k : String) (v : α)
    (h : d.any (fun p => p.1 == k) = false) :
    dictKeys (dictInsert d k v) = dictKeys d ++ [k] := by
  unfold dictKeys dictInsert
  rw [if_neg (by rw [h]; simp), List.map_append]
  rfl

theorem mem_dictKeys_iff_any (d : List (String × α)) (k : String) :
    k ∈ dictKeys d ↔ d.any (fun p => p.1 == k) = true := by
  unfold dictKeys
  rw [List.any_eq_true, List.mem_map]
  constructor
  · rintro ⟨p, hp, hk⟩; exact ⟨p, hp, by simp [hk]⟩
  · rintro ⟨p, hp, hk⟩; exact ⟨p, hp, eq_of_beq hk⟩

theorem mem_dictKeys_dictInsert (d : List (String × α)) (k k' : String) (v : α) :
    k' ∈ dictKeys (dictInsert d k v) ↔ k' ∈ dictKeys d ∨ k' = k := by
  by_cases h : d.any (fun p => p.1 == k) = true
  · rw [dictKeys_dictInsert_of_any d k v h]
    constructor
    · exact Or.inl
    · rintro (hm | rfl)
      · exact hm
      · exact (mem_dictKeys_iff_any d k').mpr h
  · rw [dictKeys_dictInsert_of_not_any d k v (Bool.eq_false_iff.mpr h)]
    simp

theorem nodup_dictKeys_dictInsert (d : List (String × α)) (k : String) (v : α)
    (h : (dictKeys d).Nodup) : (dictKeys (dictInsert d k v)).Nodup := by
  by_cases ha : d.any (fun p => p.1 == k) = true
  · rwa [dictKeys_dictInsert_of_any d k v ha]
  · rw [dictKeys_dictInsert_of_not_any d k v (Bool.eq_false_iff.mpr ha)]
    rw [List.nodup_append]
    refine ⟨h, List.nodup_singleton k, ?_⟩
    intro x hx hx1
    have hxk : x = k := by simpa using hx1
    subst hxk
    exact ha ((mem_dictKeys_iff_any d x).mp hx)

theorem dictGet_isSome_iff (d : List (String × α)) (k : String) :
    (dictGet d k).isSome ↔ k ∈ dictKeys d := by
  unfold dictGet
  rw [Option.isSome_map', List.find?_isSome, mem_dictKeys_iff_any, List.any_eq_true]

theorem dictUpdateAll_cons (d : List (String × α)) (p : String × α)
    (kvs : List (String × α)) :
    dictUpdateAll d (p :: kvs) = dictUpdateAll (dictInsert d p.1 p.2) kvs := rfl

theorem dictGet_updateAll_not_mem (d kvs : List (String × α)) (k : String)
    (h : k ∉ dictKeys kvs) :
    dictGet (dictUpdateAll d kvs) k = dictGet d k := by
  induction kvs generalizing d with
  | nil => rfl
  | cons p rest ih =>
    have hk : k ≠ p.1 := by
      intro he; exact h (by simp [dictKeys, he])
    have hrest : k ∉ dictKeys rest := by
      intro hm; exact h (by simp [dictKeys] at hm ⊢; exact Or.inr hm)
    rw [dictUpdateAll_cons, ih _ hrest, dictGet_dictInsert_ne _ _ _ _ hk]

theorem dictGet_updateAll_of_mem (d kvs : List (String × α)) (k : String) (v : α)
    (hn : (dictKeys kvs).Nodup) (hg : dictGet kvs k = some v) :
    dictGet (dictUpdateAll d kvs) k = some v := by
  induction kvs generalizing d with
  | nil => simp [dictGet] at hg
  | cons p rest ih =>
    have hn' : (p.1 :: dictKeys rest).Nodup := hn
    obtain ⟨hnm, hnr⟩ := List.nodup_cons.mp hn'
    by_cases hk : (p.1 == k) = true
    · have hpk : p.1 = k := eq_of_beq hk
      have hv : v = p.2 := by
        unfold dictGet at hg
        simp only [List.find?_cons, hk] at hg
        simpa using hg.symm
      subst hpk
      rw [dictUpdateAll_cons, dictGet_updateAll_not_mem _ _ _ hnm,
        dictGet_dictInsert_self, hv]
    · have hk' : (p.1 == k) = false := Bool.eq_false_iff.mpr hk
      have hrest : dictGet rest k = some v := by
        unfold dictGet at hg ⊢
        simp only [List.find?_cons, hk'] at hg
        exact hg
      rw [dictUpdateAll_cons]
      exact ih _ hnr hrest

end DictLemmas

theorem applyDetails_ok_keys (payload : PyDict) (ds : List ImportMapDetail)
    (acc out : PyDict) (h : applyDetails payload acc ds = .ok out) (k : String) :
    k ∈ dictKeys out ↔ (k ∈ dictKeys acc ∨ k ∈ ds.map (fun d => d.target_path)) := by
  induction ds generalizing acc with
  | nil =>
    simp only [applyDetails, Except.ok.injEq] at h
    subst h
    simp
  | cons d rest ih =>
    simp only [applyDetails] at h
    cases hv : processDetailValue payload d with
    | error e => rw [hv] at h; exact absurd h (by simp)
    | ok v =>
      rw [hv] at h
      rw [ih _ h, mem_dictKeys_dictInsert]
      simp only [List.map_cons, List.mem_cons]
      tauto

theorem applyDetails_ok_nodup (payload : PyDict) (ds : List ImportMapDetail)
    (acc out : PyDict) (hacc : (dictKeys acc).Nodup)
    (h : applyDetails payload acc ds = .ok out) : (dictKeys out).Nodup := by
  induction ds generalizing acc with
  | nil =>
    simp only [applyDetails, Except.ok.injEq] at h
    subst h
    exact hacc
  | cons d rest ih =>
    simp only [applyDetails] at h
    cases hv : processDetailValue payload d with
    | error e => rw [hv] at h; exact absurd h (by simp)
    | ok v =>
      rw [hv] at h
      exact ih _ (nodup_dictKeys_dictInsert _ _ _ hacc) h

theorem dictKeys_make_json_safe (d : PyDict) :
    dictKeys (make_json_safe d) = dictKeys d := by
  unfold dictKeys make_json_safe
  rw [List.map_map]
  rfl

theorem apply_mapping_ok_inner (payload : PyDict) (ms : ImportMapSet) (out : PyDict)
    (h : apply_mapping payload ms = .ok out) :
    ∃ inner, applyDetails payload [] ms.map_details = .ok inner ∧ out = make_json_safe inner := by
  unfold apply_mapping at h
  cases hv : applyDetails payload [] ms.map_details with
  | error e => rw [hv] at h; exact absurd h (by simp)
  | ok inner =>
    rw [hv] at h
    exact ⟨inner, rfl, by simpa using h.symm⟩

theorem apply_mapping_ok_keys (payload : PyDict) (ms : ImportMapSet) (out : PyDict)
    (h : apply_mapping payload ms = .ok out) (k : String) :
    k ∈ dictKeys out ↔ k ∈ ms.map_details.map (fun d => d.target_path) := by
  obtain ⟨inner, hi, rfl⟩ := apply_mapping_ok_inner payload ms out h
  rw [dictKeys_make_json_safe]
  rw [applyDetails_ok_keys payload ms.map_details [] inner hi k]
  simp [dictKeys]

theorem apply_mapping_ok_nodup (payload : PyDict) (ms : ImportMapSet) (out : PyDict)
    (h : apply_mapping payload ms = .ok out) : (dictKeys out).Nodup := by
  obtain ⟨inner, hi, rfl⟩ := apply_mapping_ok_inner payload ms out h
  rw [dictKeys_make_json_safe]
  exact applyDetails_ok_nodup payload ms.map_details [] inner (by simp [dictKeys]) hi

section PickNewest

variable {α : Type} (f : α → Nat)

theorem pickNewest_eq_none_iff (l : List α) : pickNewest f l = none ↔ l = [] := by
  cases l with
  | nil => simp [pickNewest]
  | cons a t =>
    simp only [pickNewest]
    cases pickNewest f t with
    | none => simp
    | some y => by_cases h : f y > f a <;> simp [h]

theorem pickNewest_mem (l : List α) (x : α) (h : pickNewest f l = some x) : x ∈ l := by
  induction l generalizing x with
  | nil => simp [pickNewest] at h
  | cons a t ih =>
    simp only [pickNewest] at h
    cases hp : pickNewest f t with
    | none =>
      simp only [hp] at h
      simp only [Option.some.injEq] at h
      simp [h]
    | some y =>
      simp only [hp] at h
      by_cases hgt : f y > f a
      · rw [if_pos hgt] at h
        have hyx : y = x := by simpa using h
        subst hyx
        exact List.mem_cons_of_mem a (ih _ hp)
      · rw [if_neg hgt] at h
        have hax : a = x := by simpa using h
        subst hax
        exact List.mem_cons_self a t

theorem pickNewest_max (l : List α) (x : α) (h : pickNewest f l = some x) :
    ∀ y ∈ l, f y ≤ f x := by
  induction l generalizing x with
  | nil => simp [pickNewest] at h
  | cons a t ih =>
    simp only [pickNewest] at h
    intro y hy
    cases hp : pickNewest f t with
    | none =>
      have ht : t = [] := (pickNewest_eq_none_iff f t).mp hp
      subst ht
      simp only [hp, Option.some.injEq] at h
      subst h
      have : y = a := by simpa using hy
      subst this
      exact le_refl _
    | some z =>
      simp only [hp] at h
      by_cases hgt : f z > f a
      · rw [if_pos hgt] at h
        have hzx : z = x := by simpa using h
        subst hzx
        rcases List.mem_cons.mp hy with rfl | hyt
        · exact le_of_lt hgt
        · exact ih _ hp y hyt
      · rw [if_neg hgt] at h
        have hax : a = x := by simpa using h
        subst hax
        rcases List.mem_cons.mp hy with rfl | hyt
        · exact le_refl _
        · exact le_trans (ih _ hp y hyt) (le_of_not_lt hgt)

end PickNewest

def isListV : Value → Bool
  | .vlist _ => true
  | _ => false

def isDictV : Value → Bool
  | .vdict _ => true
  | _ => false

def isBoolV : Value → Bool
  | .vbool _ => true
  | _ => false

def isStrV : Value → Bool
  | .vstr _ => true
  | _ => false

theorem bindMapSet_records (db : Db) (runId msId : Nat) :
    (bindMapSet db runId msId).records = db.records := rfl

theorem bindMapSet_map_sets (db : Db) (runId msId : Nat) :
    (bindMapSet db runId msId).map_sets = db.map_sets := rfl

theorem processRun_ok_elim (db : Db) (today : Nat) (run : ImportRun)
    (db1 : Db) (s e : Nat) (h : processRun db today run = .ok (db1, s, e)) :
    ∃ ms, resolve_map_set db.map_sets run = some ms ∧
      db1.map_sets = db.map_sets ∧
      db1.records = db.records.map
        (fun rec => if recordTargeted run rec then
          normalizeRecord (bindMapSet db run.id ms.id) today ms rec else rec) ∧
      e = (db.records.filter (recordTargeted run)).countP (fun rec => !recordOk ms rec) := by
  unfold processRun at h
  cases hr : resolve_map_set db.map_sets run with
  | none => rw [hr] at h; exact absurd h (by simp)
  | some ms =>
    rw [hr] at h
    refine ⟨ms, rfl, ?_⟩
    simp only [Except.ok.injEq, Prod.mk.injEq] at h
    obtain ⟨h1, _, h3⟩ := h
    subst h1
    exact ⟨rfl, rfl, h3.symm⟩

theorem processRun_error_elim (db : Db) (today : Nat) (run : ImportRun) (e : PyExc)
    (h : processRun db today run = .error e) :
    resolve_map_set db.map_sets run = none ∧
      ∃ msg, e = .commandError msg := by
  unfold processRun at h
  cases hr : resolve_map_set db.map_sets run with
  | none =>
    rw [hr] at h
    refine ⟨rfl, ?_⟩
    exact ⟨_, (by simpa using h.symm)⟩
  | some ms => rw [hr] at h; exact absurd h (by simp)

theorem processRuns_error_of_mem (today : Nat) (db : Db) (runs : List ImportRun)
    (r : ImportRun) (hmem : r ∈ runs)
    (hres : resolve_map_set db.map_sets r = none) :
    ∃ msg, processRuns today db runs = .error (.commandError msg) := by
  induction runs generalizing db with
  | nil => exact absurd hmem (List.not_mem_nil r)
  | cons r0 rest ih =>
    cases hpr : processRun db today r0 with
    | error e =>
      obtain ⟨_, msg, rfl⟩ := processRun_error_elim db today r0 e hpr
      exact ⟨msg, by simp [processRuns, hpr]⟩
    | ok res =>
      obtain ⟨db1, s, e⟩ := res
      obtain ⟨ms, hr0, hms, -, -⟩ := processRun_ok_elim db today r0 db1 s e hpr
      have hr : r ∈ rest := by
        rcases List.mem_cons.mp hmem with rfl | h2
        · rw [hres] at hr0; exact absurd hr0 (by simp)
        · exact h2
      have hres1 : resolve_map_set db1.map_sets r = none := by rw [hms]; exact hres
      obtain ⟨msg, hmsg⟩ := ih db1 hr hres1
      refine ⟨msg, ?_⟩
      simp only [processRuns, hpr, hmsg]

theorem normalizeRecord_import_run (db : Db) (today : Nat) (ms : ImportMapSet)
    (rec : ImportRawRecord) :
    (normalizeRecord db today ms rec).import_run = rec.import_run := by
  unfold normalizeRecord
  cases apply_mapping rec.payload ms <;> rfl

theorem normalizeRecord_ok_fields (db : Db) (today : Nat) (ms : ImportMapSet)
    (rec : ImportRawRecord) (h : recordOk ms rec = true) :
    (normalizeRecord db today ms rec).normalized_data.isSome = true ∧
      (normalizeRecord db today ms rec).error_message_product_import = none := by
  unfold recordOk at h
  unfold normalizeRecord
  cases happ : apply_mapping rec.payload ms with
  | ok m => exact ⟨rfl, rfl⟩
  | error e => rw [happ] at h; simp at h

theorem resetRunRecords_fields (db : Db) (rid : Nat) (rec : ImportRawRecord)
    (hmem : rec ∈ (resetRunRecords db rid).records) (hrun : rec.import_run = rid) :
    rec.normalized_data = none ∧ rec.error_message_product_import = none := by
  unfold resetRunRecords at hmem
  simp only [List.mem_map] at hmem
  obtain ⟨rec0, _, hrec⟩ := hmem
  by_cases h0 : (rec0.import_run == rid) = true
  · rw [if_pos h0] at hrec
    rw [← hrec]
    exact ⟨rfl, rfl⟩
  · rw [if_neg h0] at hrec
    subst hrec
    exact absurd (by simpa using hrun) h0

theorem coerceDatatype_vnone (dt : String) : coerceDatatype dt .vnone = .vnone := by
  unfold coerceDatatype
  split_ifs <;> rfl

theorem apply_transform_vnone (t : String) (h : t ≠ "bool") :
    apply_transform .vnone (some t) = .ok .vnone := by
  simp only [apply_transform]
  by_cases h1 : (t == "uppercase") = true
  · rw [if_pos h1]
  rw [if_neg h1]
  by_cases h2 : (t == "lowercase") = true
  · rw [if_pos h2]
  rw [if_neg h2]
  by_cases h3 : (t == "strip") = true
  · rw [if_pos h3]
  rw [if_neg h3]
  by_cases h4 : (t == "int") = true
  · rw [if_pos h4]; rfl
  rw [if_neg h4]
  by_cases h5 : (t == "decimal") = true
  · rw [if_pos h5]; rfl
  rw [if_neg h5]
  rw [if_neg (fun hx => h (eq_of_beq hx))]

theorem apply_transform_vnone_ok (t : String) :
    ∃ w, apply_transform .vnone (some t) = .ok w := by
  simp only [apply_transform]
  by_cases h1 : (t == "uppercase") = true
  · rw [if_pos h1]; exact ⟨_, rfl⟩
  rw [if_neg h1]
  by_cases h2 : (t == "lowercase") = true
  · rw [if_pos h2]; exact ⟨_, rfl⟩
  rw [if_neg h2]
  by_cases h3 : (t == "strip") = true
  · rw [if_pos h3]; exact ⟨_, rfl⟩
  rw [if_neg h3]
  by_cases h4 : (t == "int") = true
  · rw [if_pos h4]; exact ⟨_, rfl⟩
  rw [if_neg h4]
  by_cases h5 : (t == "decimal") = true
  · rw [if_pos h5]; exact ⟨_, rfl⟩
  rw [if_neg h5]
  by_cases h6 : (t == "bool") = true
  · rw [if_pos h6]; exact ⟨_, rfl⟩
  rw [if_neg h6]
  exact ⟨_, rfl⟩

theorem apply_transform_error_imp (v : Value) (t : String) (e : PyExc)
    (h : apply_transform v (some t) = .error e) :
    e = .typeError ∧ t = "int" ∧ (isListV v || isDictV v) = true := by
  simp only [apply_transform] at h
  by_cases h1 : (t == "uppercase") = true
  · rw [if_pos h1] at h; cases v <;> simp at h
  rw [if_neg h1] at h
  by_cases h2 : (t == "lowercase") = true
  · rw [if_pos h2] at h; cases v <;> simp at h
  rw [if_neg h2] at h
  by_cases h3 : (t == "strip") = true
  · rw [if_pos h3] at h; cases v <;> simp at h
  rw [if_neg h3] at h
  by_cases h4 : (t == "int") = true
  · rw [if_pos h4] at h
    cases v with
    | vnone => simp [isNoneOrEmpty] at h
    | vbool b => simp [isNoneOrEmpty, pyInt] at h
    | vint n => simp [isNoneOrEmpty, pyInt] at h
    | vfloat q => simp [isNoneOrEmpty, pyInt] at h
    | vdec q => simp [isNoneOrEmpty, pyInt] at h
    | vstr s =>
      by_cases hs : isNoneOrEmpty (.vstr s) = true
      · rw [if_pos hs] at h; simp at h
      · rw [if_neg hs] at h
        simp only [pyInt] at h
        cases hps : parseIntStr s with
        | some n => rw [hps] at h; simp at h
        | none => rw [hps] at h; simp at h
    | vlist l =>
      rw [if_neg (by simp [isNoneOrEmpty])] at h
      simp only [pyInt] at h
      simp only [Except.error.injEq] at h
      exact ⟨h.symm, eq_of_beq h4, by simp [isListV]⟩
    | vdict l =>
      rw [if_neg (by simp [isNoneOrEmpty])] at h
      simp only [pyInt] at h
      simp only [Except.error.injEq] at h
      exact ⟨h.symm, eq_of_beq h4, by simp [isDictV]⟩
  rw [if_neg h4] at h
  by_cases h5 : (t == "decimal") = true
  · rw [if_pos h5] at h
    by_cases hs : isNoneOrEmpty v = true
    · rw [if_pos hs] at h; simp at h
    · rw [if_neg hs] at h
      cases hd : pyDecimalOfStr v with
      | ok q => rw [hd] at h; simp at h
      | error e2 => rw [hd] at h; simp at h
  rw [if_neg h5] at h
  by_cases h6 : (t == "bool") = true
  · rw [if_pos h6] at h; cases v <;> simp at h
  rw [if_neg h6] at h
  simp at h

theorem processDetailValue_error_imp (payload : PyDict) (d : ImportMapDetail)
    (e : PyExc) (h : processDetailValue payload d = .error e) : e = .typeError := by
  simp only [processDetailValue] at h
  cases ha : transformStep ((dictGet payload d.source_path).getD .vnone) d.transform with
  | ok w => rw [ha] at h; simp at h
  | error e2 =>
    rw [ha] at h
    simp only [Except.error.injEq] at h
    subst h
    cases hd : d.transform with
    | none => rw [hd] at ha; simp [transformStep] at ha
    | some t =>
      rw [hd] at ha
      simp only [transformStep] at ha
      by_cases ht : (t == "") = true
      · rw [if_pos ht] at ha; simp at ha
      · rw [if_neg ht] at ha
        exact (apply_transform_error_imp _ _ _ ha).1

theorem applyDetails_error_imp (payload : PyDict) (ds : List ImportMapDetail)
    (acc : PyDict) (e : PyExc) (h : applyDetails payload acc ds = .error e) :
    e = .typeError := by
  induction ds generalizing acc with
  | nil => simp [applyDetails] at h
  | cons d rest ih =>
    simp only [applyDetails] at h
    cases hv : processDetailValue payload d with
    | error e2 =>
      rw [hv] at h
      simp only [Except.error.injEq] at h
      subst h
      exact processDetailValue_error_imp payload d _ hv
    | ok v =>
      rw [hv] at h
      exact ih _ h

theorem apply_mapping_error_imp (payload : PyDict) (ms : ImportMapSet) (e : PyExc)
    (h : apply_mapping payload ms = .error e) : e = .typeError := by
  unfold apply_mapping at h
  cases hv : applyDetails payload [] ms.map_details with
  | error e2 =>
    rw [hv] at h
    simp only [Except.error.injEq] at h
    subst h
    exact applyDetails_error_imp payload ms.map_details [] _ hv
  | ok inner => rw [hv] at h; simp at h

/-! Concrete fixtures used by the counterexamples and witnesses. -/

def run1 : ImportRun := { id := 1, supplier := 7, source_type := "file", map_set := none }

def msOld : ImportMapSet :=
  { id := 1, organization := 1, supplier := 7, source_type := "file",
    valid_from := 20240101, map_details := [] }

def msFuture : ImportMapSet :=
  { id := 2, organization := 1, supplier := 7, source_type := "file",
    valid_from := 20270101, map_details := [] }

def cexDbC1 : Db :=
  { suppliers := [7], runs := [run1], records := [],
    map_sets := [msOld, msFuture], default_sets := [] }

def msA : ImportMapSet :=
  { id := 10, organization := 1, supplier := 7, source_type := "file",
    valid_from := 20240101, map_details := [] }

def msB : ImportMapSet :=
  { id := 11, organization := 1, supplier := 7, source_type := "file",
    valid_from := 20250101, map_details := [] }

def emptyMsDb : Db :=
  { suppliers := [7], runs := [run1], records := [], map_sets := [], default_sets := [] }

/-- C1 counterexample: the code's resolver has no `valid_from <= now`
bound.  With sets dated 2024-01-01 and 2027-01-01 and as-of date
2025-06-01, it resolves — and `handle` binds — the 2027-01-01 set, whose
`valid_from` exceeds now, contradicting the claim that a set dated after
now is never chosen. -/
theorem C1_counterexample :
    resolve_map_set cexDbC1.map_sets run1 = some msFuture
    ∧ msFuture.valid_from = 20270101
    ∧ ¬(20270101 ≤ 20250601)
    ∧ handle cexDbC1 20250601 none (some 7)
        = .ok ({ cexDbC1 with runs := [{ run1 with map_set := some 2 }] }, 1, 0, 0) := by
  refine ⟨rfl, rfl, by omega, rfl⟩

/-- C1 (corrected): when the Normalization Orchestrator processes an
ImportRun whose map_set is unbound, it resolves the MappingSet for the
run's (supplier, source_type) as the one with the GREATEST `valid_from`
among all sets for that pair, with no `valid_from <= now` bound (so when
every set for the pair is dated on or before now — e.g. 2024-01-01 and
2025-01-01 as of 2025-06-01 — the newest applicable set is chosen, but a
set dated after now can also be chosen); if no MappingSet exists for the
pair, the whole command fails (CommandError) rather than one record. -/
theorem C1_amended :
    (∀ (msets : List ImportMapSet) (run : ImportRun) (ms : ImportMapSet),
       resolve_map_set msets run = some ms →
         ms ∈ msets.filter
             (fun s => s.supplier == run.supplier && s.source_type == run.source_type)
         ∧ ∀ s ∈ msets.filter
             (fun s => s.supplier == run.supplier && s.source_type == run.source_type),
             s.valid_from ≤ ms.valid_from)
    ∧ (∀ (msets : List ImportMapSet) (run : ImportRun),
       resolve_map_set msets run = none ↔
         msets.filter
             (fun s => s.supplier == run.supplier && s.source_type == run.source_type)
           = [])
    ∧ (∀ (db : Db) (today : Nat) (runs : List ImportRun) (r : ImportRun),
       r ∈ runs → resolve_map_set db.map_sets r = none →
         ∃ msg, processRuns today db runs = .error (.commandError msg)) := by
  refine ⟨?_, ?_, ?_⟩
  · intro msets run ms h
    exact ⟨pickNewest_mem _ _ _ h, pickNewest_max _ _ _ h⟩
  · intro msets run
    exact pickNewest_eq_none_iff _ _
  · exact fun db today runs r => processRuns_error_of_mem today db runs r

/-- Witness for C1: at the spec's own dates (2024-01-01 and 2025-01-01 as
of any date) the resolver picks the 2025-01-01 set, and with no map set at
all the whole command errors out. -/
theorem C1_amended_witness :
    (msB ∈ [msA, msB].filter
        (fun s => s.supplier == run1.supplier && s.source_type == run1.source_type)
     ∧ ∀ s ∈ [msA, msB].filter
        (fun s => s.supplier == run1.supplier && s.source_type == run1.source_type),
        s.valid_from ≤ msB.valid_from)
    ∧ ∃ msg, processRuns 20250601 emptyMsDb [run1] = .error (.commandError msg) := by
  constructor
  · exact C1_amended.1 [msA, msB] run1 msB rfl
  · exact C1_amended.2.2 emptyMsDb 20250601 [run1] run1 (List.mem_singleton.mpr rfl) rfl

def futureDefaults : ImportGlobalDefaultSet :=
  { organization := 1, valid_from := 20260101,
    lines := [{ target_path := "product.name", default_value := .vstr "X" }] }

def cexDbC2 : Db :=
  { suppliers := [7], runs := [], records := [], map_sets := [],
    default_sets := [futureDefaults] }

/-- C2 counterexample: for an organization whose only GlobalDefaultSet is
dated after the as-of date (so none is applicable), the flat form
`load_defaults` does NOT raise — it returns the empty dict — while only
the nested form `build_base_dict` raises. -/
theorem C2_counterexample :
    load_defaults 1 20250601 cexDbC2 = []
    ∧ cexDbC2.default_sets ≠ []
    ∧ build_base_dict cexDbC2 20250601 1
        = .error (.runtimeError "No ImportGlobalDefaultSet found for org_id=1") := by
  refine ⟨rfl, by simp [cexDbC2], rfl⟩

/-- C2 (corrected): for every organization with no GlobalDefaultSet whose
valid_from is on or before the as-of date, the nested form
`build_base_dict(org)` fails by raising RuntimeError, but the flat form
`load_defaults(org)` does not raise: it returns the empty dict. -/
theorem C2_amended : ∀ (db : Db) (today org : Nat),
    get_active_default_set db today org = none →
    build_base_dict db today org
        = .error (.runtimeError ("No ImportGlobalDefaultSet found for org_id=" ++ toString org))
    ∧ load_defaults org today db = [] := by
  intro db today org h
  constructor
  · unfold build_base_dict
    rw [h]
  · unfold load_defaults
    unfold get_active_default_set at h
    rw [h]

/-- Witness for C2 at a concrete database with one inapplicable default
set. -/
theorem C2_amended_witness :
    build_base_dict cexDbC2 20250601 1
        = .error (.runtimeError ("No ImportGlobalDefaultSet found for org_id=" ++ toString 1))
    ∧ load_defaults 1 20250601 cexDbC2 = [] :=
  C2_amended cexDbC2 20250601 1 rfl

def dIntTransform : ImportMapDetail :=
  { source_path := "x", target_path := "y", target_datatype := "str",
    transform := some "int", is_required := false }

def msIntTransform : ImportMapSet :=
  { id := 3, organization := 1, supplier := 7, source_type := "file",
    valid_from := 20240101, map_details := [dIntTransform] }

def dIntType : ImportMapDetail :=
  { source_path := "x", target_path := "y", target_datatype := "int",
    transform := none, is_required := false }

def msIntType : ImportMapSet :=
  { id := 4, organization := 1, supplier := 7, source_type := "file",
    valid_from := 20240101, map_details := [dIntType] }

/-- C3 counterexample: two failures of the claim. (i) A rule with the
`int` transform applied to a list payload value raises TypeError — which
`apply_transform` does not catch (it catches only ValueError and
InvalidOperation) and which escapes `apply_mapping`, because the transform
runs outside the per-rule try block. (ii) With target DataType `int` and
payload value `""`, the guarded coercion leaves the empty string
unchanged, so the output value is neither of the expected primitive kind
nor None. -/
theorem C3_counterexample :
    apply_mapping [("x", .vlist [])] msIntTransform = .error .typeError
    ∧ apply_mapping [("x", .vstr "")] msIntType = .ok [("y", .vstr "")]
    ∧ (Value.vstr "" ≠ Value.vnone) := by
  refine ⟨rfl, rfl, ?_⟩
  intro h
  exact Value.noConfusion h

/-- C3 (corrected): the datatype-coercion step of `apply_mapping` is a
total function that never raises: for target DataTypes int/decimal it
yields a value of the expected kind, None, or passes the empty string
through unchanged, and for bool/str it yields the expected kind or None.
Per-field transforms degrade ValueError/InvalidOperation to None, but the
only transform exception that exists — the TypeError of the `int`
transform on a list or dict value — propagates out of `apply_mapping`
(and it is the only exception `apply_mapping` can raise). -/
theorem C3_amended :
    (∀ v, (∃ n, coerceDatatype "int" v = .vint n) ∨ coerceDatatype "int" v = .vnone
          ∨ (v = .vstr "" ∧ coerceDatatype "int" v = .vstr ""))
    ∧ (∀ v, (∃ q, coerceDatatype "decimal" v = .vdec q) ∨ coerceDatatype "decimal" v = .vnone
          ∨ (v = .vstr "" ∧ coerceDatatype "decimal" v = .vstr ""))
    ∧ (∀ v, (∃ b, coerceDatatype "bool" v = .vbool b) ∨ coerceDatatype "bool" v = .vnone)
    ∧ (∀ v, (∃ s, coerceDatatype "str" v = .vstr s) ∨ coerceDatatype "str" v = .vnone)
    ∧ (∀ (v : Value) (t : String) (e : PyExc),
        apply_transform v (some t) = .error e →
          e = .typeError ∧ t = "int" ∧ (isListV v || isDictV v) = true)
    ∧ (∀ (payload : PyDict) (ms : ImportMapSet) (e : PyExc),
        apply_mapping payload ms = .error e → e = .typeError) := by
  refine ⟨?_, ?_, ?_, ?_, apply_transform_error_imp, apply_mapping_error_imp⟩
  · intro v
    cases v with
    | vnone => right; left; rfl
    | vbool b => left; exact ⟨_, rfl⟩
    | vint n => left; exact ⟨_, rfl⟩
    | vfloat q => left; exact ⟨_, rfl⟩
    | vdec q => left; exact ⟨_, rfl⟩
    | vstr s =>
      by_cases hs : s = ""
      · subst hs; right; right; exact ⟨rfl, rfl⟩
      · have hcd : coerceDatatype "int" (Value.vstr s) = coerceInt (Value.vstr s) := rfl
        rw [hcd]
        unfold coerceInt
        rw [if_neg (by simp [isNoneOrEmpty, hs])]
        simp only [pyInt]
        cases hps : parseIntStr s with
        | some n => left; exact ⟨n, rfl⟩
        | none => right; left; rfl
    | vlist l => right; left; rfl
    | vdict l => right; left; rfl
  · intro v
    cases v with
    | vnone => right; left; rfl
    | vbool b => right; left; rfl
    | vint n => left; exact ⟨_, rfl⟩
    | vfloat q => left; exact ⟨_, rfl⟩
    | vdec q => left; exact ⟨_, rfl⟩
    | vstr s =>
      by_cases hs : s = ""
      · subst hs; right; right; exact ⟨rfl, rfl⟩
      · have hcd : coerceDatatype "decimal" (Value.vstr s) = coerceDecimal (Value.vstr s) := rfl
        rw [hcd]
        unfold coerceDecimal
        rw [if_neg (by simp [isNoneOrEmpty, hs])]
        simp only [pyDecimalOfStr]
        cases hps : parseDecStr s with
        | some q => left; exact ⟨q, rfl⟩
        | none => right; left; rfl
    | vlist l => right; left; rfl
    | vdict l => right; left; rfl
  · intro v
    cases v with
    | vnone => right; rfl
    | vstr s => left; exact ⟨_, rfl⟩
    | vbool b => left; exact ⟨_, rfl⟩
    | vint n => left; exact ⟨_, rfl⟩
    | vfloat q => left; exact ⟨_, rfl⟩
    | vdec q => left; exact ⟨_, rfl⟩
    | vlist l => left; exact ⟨_, rfl⟩
    | vdict l => left; exact ⟨_, rfl⟩
  · intro v
    cases v with
    | vnone => right; rfl
    | vbool b => left; exact ⟨_, rfl⟩
    | vint n => left; exact ⟨_, rfl⟩
    | vfloat q => left; exact ⟨_, rfl⟩
    | vdec q => left; exact ⟨_, rfl⟩
    | vstr s => left; exact ⟨_, rfl⟩
    | vlist l => left; exact ⟨_, rfl⟩
    | vdict l => left; exact ⟨_, rfl⟩

/-- Witness for C3: the two implications applied at concrete inputs — the
`int` transform on `[]` raising TypeError out of a one-rule mapping. -/
theorem C3_amended_witness :
    (PyExc.typeError = PyExc.typeError ∧ "int" = "int"
      ∧ (isListV (.vlist []) || isDictV (.vlist [])) = true)
    ∧ PyExc.typeError = PyExc.typeError := by
  constructor
  · exact C3_amended.2.2.2.2.1 (.vlist []) "int" .typeError rfl
  · exact C3_amended.2.2.2.2.2 [("x", .vlist [])] msIntTransform .typeError rfl


def wMs : ImportMapSet :=
  { id := 20, organization := 1, supplier := 7, source_type := "file",
    valid_from := 20240101,
    map_details := [{ source_path := "oc", target_path := "variant.origin_code",
                      target_datatype := "str", transform := none, is_required := false }] }

def wDb : Db :=
  { suppliers := [7], runs := [], records := [], map_sets := [wMs],
    default_sets := [{ organization := 1, valid_from := 20240101,
                       lines := [{ target_path := "variant.origin_code",
                                   default_value := .vstr "E" }] }] }

def wRec : ImportRawRecord :=
  { id := 1, import_run := 1, line_number := 1, payload := [("oc", .vstr "N")],
    normalized_data := none, error_message_product_import := none }

/-- C4: mapping output always wins over defaults.  For every key the
mapping produced a value for, the merged dict `{**load_defaults(org),
**apply_mapping(payload, map_set)}` holds the mapping's value — both in
the `normalized.update(mapped)` merge stored by the orchestrator and in
`merge_defaults` — never the default's. -/
theorem C4_theorem : ∀ (db : Db) (today : Nat) (ms : ImportMapSet)
    (payload out : PyDict) (k : String) (v : Value) (rec : ImportRawRecord),
    apply_mapping payload ms = .ok out →
    dictGet out k = some v →
    dictGet (dictUpdateAll (load_defaults ms.organization today db) out) k = some v
    ∧ dictGet (merge_defaults out ms.organization today db) k = some v
    ∧ (rec.payload = payload →
       (normalizeRecord db today ms rec).normalized_data
         = some (dictUpdateAll (load_defaults ms.organization today db) out)) := by
  intro db today ms payload out k v rec happ hget
  have hnodup := apply_mapping_ok_nodup payload ms out happ
  refine ⟨dictGet_updateAll_of_mem _ _ _ _ hnodup hget,
          dictGet_updateAll_of_mem _ _ _ _ hnodup hget, ?_⟩
  intro hp
  unfold normalizeRecord
  rw [hp, happ]

/-- Witness for C4 at the spec's scenario 3: default `variant.origin_code
= "E"` merged with mapping output `variant.origin_code = "N"` gives
`"N"`. -/
theorem C4_witness :
    dictGet (dictUpdateAll (load_defaults 1 20250601 wDb)
        [("variant.origin_code", Value.vstr "N")]) "variant.origin_code"
      = some (Value.vstr "N")
    ∧ (normalizeRecord wDb 20250601 wMs wRec).normalized_data
      = some (dictUpdateAll (load_defaults 1 20250601 wDb)
          [("variant.origin_code", Value.vstr "N")]) := by
  have h := C4_theorem wDb 20250601 wMs [("oc", Value.vstr "N")]
      [("variant.origin_code", Value.vstr "N")] "variant.origin_code"
      (Value.vstr "N") wRec rfl rfl
  exact ⟨h.1, h.2.2 rfl⟩

def dBoolTransform : ImportMapDetail :=
  { source_path := "x", target_path := "t", target_datatype := "str",
    transform := some "bool", is_required := false }

def msBoolTransform : ImportMapSet :=
  { id := 5, organization := 1, supplier := 7, source_type := "file",
    valid_from := 20240101, map_details := [dBoolTransform] }

/-- C5 counterexample: a rule with the `bool` transform whose source_path
is absent gets `bool(None) = False`, which the `str` datatype then turns
into the string "False" — the output key is present but its value is not
None, contradicting the claim's "regardless of the rule's transform
(including bool)". -/
theorem C5_counterexample :
    apply_mapping [] msBoolTransform = .ok [("t", .vstr "False")]
    ∧ dictGet [("t", Value.vstr "False")] "t" = some (Value.vstr "False")
    ∧ (Value.vstr "False" ≠ Value.vnone) := by
  refine ⟨rfl, rfl, ?_⟩
  intro h
  exact Value.noConfusion h

/-- C5 (corrected): for every mapping rule whose source_path is absent
from the payload, no exception is raised for that rule and the rule's
target_path is present as a key of `apply_mapping`'s output; the value is
None whenever the rule's transform is not `bool` (any target DataType),
while a `bool` transform turns the missing value into `False` before
coercion. -/
theorem C5_theorem : ∀ (payload : PyDict) (d : ImportMapDetail),
    dictGet payload d.source_path = none →
    (∃ v, processDetailValue payload d = .ok v)
    ∧ (d.transform ≠ some "bool" → processDetailValue payload d = .ok .vnone)
    ∧ (∀ ms out, apply_mapping payload ms = .ok out → d ∈ ms.map_details →
        (dictGet out d.target_path).isSome = true)
    ∧ (d.transform = some "bool" →
        processDetailValue payload d = .ok (coerceDatatype d.target_datatype (.vbool false))) := by
  intro payload d hmiss
  have hraw : (dictGet payload d.source_path).getD .vnone = .vnone := by rw [hmiss]; rfl
  refine ⟨?_, ?_, ?_, ?_⟩
  · simp only [processDetailValue, hraw]
    cases hd : d.transform with
    | none => exact ⟨_, rfl⟩
    | some t =>
      simp only [transformStep]
      by_cases ht : (t == "") = true
      · rw [if_pos ht]; exact ⟨_, rfl⟩
      · rw [if_neg ht]
        obtain ⟨w, hw⟩ := apply_transform_vnone_ok t
        rw [hw]
        exact ⟨_, rfl⟩
  · intro hnb
    simp only [processDetailValue, hraw]
    cases hd : d.transform with
    | none => simp only [transformStep, coerceDatatype_vnone]
    | some t =>
      simp only [transformStep]
      by_cases ht : (t == "") = true
      · rw [if_pos ht]; simp only [coerceDatatype_vnone]
      · rw [if_neg ht]
        have htb : t ≠ "bool" := by
          intro he; exact hnb (by rw [hd, he])
        rw [apply_transform_vnone t htb]
        simp only [coerceDatatype_vnone]
  · intro ms out happ hd
    rw [dictGet_isSome_iff, apply_mapping_ok_keys payload ms out happ]
    exact List.mem_map.mpr ⟨d, hd, rfl⟩
  · intro hb
    simp only [processDetailValue, hraw, hb, transformStep]
    rw [if_neg (by decide)]
    rfl

/-- Witness for C5 at the spec's scenario 2 (source_path "origin" absent,
transform uppercase, datatype str): the output value is None and no
exception is raised; plus the bool-transform variant at a concrete
rule. -/
theorem C5_witness :
    processDetailValue [("sku", Value.vstr "ABC")]
        { source_path := "origin", target_path := "origin_code",
          target_datatype := "str", transform := some "uppercase", is_required := false }
      = .ok .vnone
    ∧ processDetailValue [] dBoolTransform
        = .ok (coerceDatatype "str" (.vbool false)) := by
  constructor
  · exact (C5_theorem [("sku", Value.vstr "ABC")]
      { source_path := "origin", target_path := "origin_code",
        target_datatype := "str", transform := some "uppercase", is_required := false }
      rfl).2.1 (by decide)
  · exact (C5_theorem [] dBoolTransform rfl).2.2.2 rfl

/-- C6 counterexample: the bool transform applied to `None` yields
`bool(None) = False`, not `None` — the claim's "None or empty input to
None" fails (the empty string likewise yields `False` via the
string-membership rule). -/
theorem C6_counterexample :
    apply_transform .vnone (some "bool") = .ok (.vbool false)
    ∧ apply_transform (.vstr "") (some "bool") = .ok (.vbool false)
    ∧ ((Except.ok (Value.vbool false) : Except PyExc Value) ≠ .ok .vnone) := by
  refine ⟨rfl, ?_, ?_⟩
  · show Except.ok (Value.vbool (strTruthy "")) = .ok (.vbool false)
    rw [(show strTruthy "" = false by decide)]
  · intro h
    injection h with h2
    exact Value.noConfusion h2

/-- C6 (corrected): the bool transform maps an input that is already
boolean to itself; a string input to True iff its stripped, lower-cased
form is one of "1", "true", "yes", "y" (so "Yes" yields True and "0"
yields False, and "" yields False); and any other input — including None
and empty containers — to its truthiness as a bool (so None yields False,
never None). -/
theorem C6_amended :
    (∀ b, apply_transform (.vbool b) (some "bool") = .ok (.vbool b))
    ∧ (∀ s, apply_transform (.vstr s) (some "bool") = .ok (.vbool (strTruthy s)))
    ∧ (∀ v, isBoolV v = false → isStrV v = false →
        apply_transform v (some "bool") = .ok (.vbool (truthy v)))
    ∧ apply_transform (.vstr "Yes") (some "bool") = .ok (.vbool true)
    ∧ apply_transform (.vstr "0") (some "bool") = .ok (.vbool false)
    ∧ apply_transform .vnone (some "bool") = .ok (.vbool false) := by
  refine ⟨fun b => rfl, fun s => rfl, ?_, ?_, ?_, rfl⟩
  case refine_2 =>
    show Except.ok (Value.vbool (strTruthy "Yes")) = .ok (.vbool true)
    rw [(show strTruthy "Yes" = true by decide)]
  case refine_3 =>
    show Except.ok (Value.vbool (strTruthy "0")) = .ok (.vbool false)
    rw [(show strTruthy "0" = false by decide)]
  intro v hb hs
  cases v with
  | vbool b => simp [isBoolV] at hb
  | vstr s => simp [isStrV] at hs
  | vnone => rfl
  | vint n => rfl
  | vfloat q => rfl
  | vdec q => rfl
  | vlist l => rfl
  | vdict l => rfl

/-- Witness for C6 at a non-bool, non-string input: a nonempty list goes
to its truthiness. -/
theorem C6_amended_witness :
    apply_transform (.vlist [.vint 1]) (some "bool")
      = .ok (.vbool (truthy (.vlist [.vint 1]))) :=
  C6_amended.2.2.1 (.vlist [.vint 1]) rfl rfl

def w9Rec : ImportRawRecord :=
  { id := 2, import_run := 1, line_number := 1, payload := [("a", .vint 1)],
    normalized_data := some [("a", .vint 1)],
    error_message_product_import := some "old error" }

/-- C9: apply_mapping is deterministic and reads no hidden mutable state —
two applications to the same (payload, mapping_set) yield identical
output — and the stored record produced by a successful normalization
depends only on the record's payload: resetting `normalized_data` and the
error field (as reprocessing does) and normalizing again reproduces
exactly the same record. -/
theorem C9_theorem : ∀ (db : Db) (today : Nat) (ms : ImportMapSet)
    (payload : PyDict) (rec : ImportRawRecord) (nd : Option PyDict) (em : Option String),
    apply_mapping payload ms = apply_mapping payload ms
    ∧ (recordOk ms rec = true →
        normalizeRecord db today ms
          { rec with normalized_data := nd, error_message_product_import := em }
        = normalizeRecord db today ms rec) := by
  intro db today ms payload rec nd em
  refine ⟨rfl, ?_⟩
  intro hok
  unfold recordOk at hok
  unfold normalizeRecord
  cases happ : apply_mapping rec.payload ms with
  | ok m => rfl
  | error e => rw [happ] at hok; simp at hok

/-- Witness for C9: a record whose stale `normalized_data` and error
message are reset reproduces the same normalized record. -/
theorem C9_witness :
    normalizeRecord wDb 20250601 wMs
        { w9Rec with normalized_data := none, error_message_product_import := none }
      = normalizeRecord wDb 20250601 wMs w9Rec :=
  (C9_theorem wDb 20250601 wMs [] w9Rec none none).2 rfl

/-- C10 (implicit): the key set of apply_mapping's output is exactly the
set of target_paths of the map set's rules, independent of the payload;
consequently a mapped field that degraded to None still overwrites any
default for the same target_path with None in the merged dict. -/
theorem C10_theorem : ∀ (payload : PyDict) (ms : ImportMapSet) (out : PyDict),
    apply_mapping payload ms = .ok out →
    (∀ k, (dictGet out k).isSome ↔ k ∈ ms.map_details.map (fun d => d.target_path))
    ∧ (∀ base k, dictGet out k = some .vnone →
        dictGet (dictUpdateAll base out) k = some .vnone) := by
  intro payload ms out happ
  constructor
  · intro k
    exact Iff.trans (dictGet_isSome_iff out k) (apply_mapping_ok_keys payload ms out happ k)
  · intro base k hk
    exact dictGet_updateAll_of_mem base out k _ (apply_mapping_ok_nodup payload ms out happ) hk

/-- Witness for C10: an int-typed rule on an empty payload yields the key
"y" with value None, and that None overwrites a non-null default for "y"
in the merge. -/
theorem C10_witness :
    ((dictGet [("y", Value.vnone)] "y").isSome
       ↔ "y" ∈ msIntType.map_details.map (fun d => d.target_path))
    ∧ dictGet (dictUpdateAll [("y", Value.vstr "E")] [("y", Value.vnone)]) "y"
        = some Value.vnone := by
  have h := C10_theorem [] msIntType [("y", Value.vnone)] rfl
  exact ⟨h.1 "y", h.2 [("y", Value.vstr "E")] "y" rfl⟩

/-- `base[section][key]` as an optional lookup in the nested base dict. -/
def nestedGet2 (base : List (String × PyDict)) (sec key : String) : Option Value :=
  (dictGet base sec).bind (fun d => dictGet d key)

theorem placeLine_hit (base : List (String × PyDict)) (line : ImportGlobalDefaultLine) :
    nestedGet2 (placeLine base line) (lineSection line).1 (lineSection line).2
      = some line.default_value := by
  unfold nestedGet2 placeLine
  rw [dictGet_dictInsert_self]
  rw [Option.some_bind]
  rw [dictGet_dictInsert_self]

theorem placeLine_miss_sec (base : List (String × PyDict))
    (line : ImportGlobalDefaultLine) (sec : String) (h : sec ≠ (lineSection line).1) :
    dictGet (placeLine base line) sec = dictGet base sec := by
  unfold placeLine
  exact dictGet_dictInsert_ne _ _ _ _ h

theorem placeLine_miss (base : List (String × PyDict))
    (line : ImportGlobalDefaultLine) (sec key : String)
    (h : (sec, key) ≠ lineSection line) :
    nestedGet2 (placeLine base line) sec key = nestedGet2 base sec key := by
  by_cases hsec : sec = (lineSection line).1
  · subst hsec
    have hkey : key ≠ (lineSection line).2 := by
      intro he
      exact h (by rw [he])
    unfold nestedGet2 placeLine
    rw [dictGet_dictInsert_self, Option.some_bind]
    rw [dictGet_dictInsert_ne _ _ _ _ hkey]
    cases hb : dictGet base (lineSection line).1 with
    | some d => simp [hb]
    | none => simp [hb, dictGet]
  · unfold nestedGet2
    rw [placeLine_miss_sec base line sec hsec]

theorem foldPlace_miss (lines : List ImportGlobalDefaultLine)
    (base : List (String × PyDict)) (sec key : String)
    (h : ∀ l ∈ lines, (sec, key) ≠ lineSection l) :
    nestedGet2 (lines.foldl placeLine base) sec key = nestedGet2 base sec key := by
  induction lines generalizing base with
  | nil => rfl
  | cons l0 rest ih =>
    rw [List.foldl_cons, ih _ (fun l hl => h l (List.mem_cons_of_mem l0 hl)),
      placeLine_miss base l0 sec key (h l0 (List.mem_cons_self l0 rest))]

theorem foldPlace_hit (lines : List ImportGlobalDefaultLine)
    (base : List (String × PyDict)) (line : ImportGlobalDefaultLine)
    (hnd : (lines.map lineSection).Nodup) (hmem : line ∈ lines) :
    nestedGet2 (lines.foldl placeLine base) (lineSection line).1 (lineSection line).2
      = some line.default_value := by
  induction lines generalizing base with
  | nil => exact absurd hmem (List.not_mem_nil line)
  | cons l0 rest ih =>
    have hnd' : lineSection l0 ∉ rest.map lineSection ∧ (rest.map lineSection).Nodup := by
      have : (lineSection l0 :: rest.map lineSection).Nodup := hnd
      exact List.nodup_cons.mp this
    rw [List.foldl_cons]
    rcases List.mem_cons.mp hmem with rfl | hrest
    · rw [foldPlace_miss rest (placeLine base line) (lineSection line).1 (lineSection line).2
        (fun l hl he => hnd'.1 (by rw [Prod.mk.eta] at he; rw [he]; exact List.mem_map.mpr ⟨l, hl, rfl⟩))]
      exact placeLine_hit base line
    · exact ih _ hnd'.2 hrest

theorem placeLine_outer_self (base : List (String × PyDict))
    (line : ImportGlobalDefaultLine) :
    (dictGet (placeLine base line) (lineSection line).1).isSome = true := by
  unfold placeLine
  rw [dictGet_dictInsert_self]
  rfl

theorem placeLine_outer_mono (base : List (String × PyDict))
    (line : ImportGlobalDefaultLine) (sec : String)
    (h : (dictGet base sec).isSome = true) :
    (dictGet (placeLine base line) sec).isSome = true := by
  by_cases hsec : sec = (lineSection line).1
  · subst hsec
    exact placeLine_outer_self base line
  · rw [placeLine_miss_sec base line sec hsec]
    exact h

theorem foldPlace_outer_mono (lines : List ImportGlobalDefaultLine)
    (base : List (String × PyDict)) (sec : String)
    (h : (dictGet base sec).isSome = true) :
    (dictGet (lines.foldl placeLine base) sec).isSome = true := by
  induction lines generalizing base with
  | nil => exact h
  | cons l0 rest ih =>
    rw [List.foldl_cons]
    exact ih _ (placeLine_outer_mono base l0 sec h)

theorem foldPlace_outer_of_mem (lines : List ImportGlobalDefaultLine)
    (base : List (String × PyDict)) (line : ImportGlobalDefaultLine)
    (hmem : line ∈ lines) :
    (dictGet (lines.foldl placeLine base) (lineSection line).1).isSome = true := by
  induction lines generalizing base with
  | nil => exact absurd hmem (List.not_mem_nil line)
  | cons l0 rest ih =>
    rw [List.foldl_cons]
    rcases List.mem_cons.mp hmem with rfl | hrest
    · exact foldPlace_outer_mono rest _ _ (placeLine_outer_self base line)
    · exact ih _ hrest

theorem foldPlace_untouched (lines : List ImportGlobalDefaultLine)
    (base : List (String × PyDict)) (sec : String)
    (h : ∀ l ∈ lines, (lineSection l).1 ≠ sec) :
    dictGet (lines.foldl placeLine base) sec = dictGet base sec := by
  induction lines generalizing base with
  | nil => rfl
  | cons l0 rest ih =>
    rw [List.foldl_cons, ih _ (fun l hl => h l (List.mem_cons_of_mem l0 hl)),
      placeLine_miss_sec base l0 sec (fun he => h l0 (List.mem_cons_self l0 rest) he.symm)]

/-- C8: build_base_dict expansion.  For every applicable GlobalDefaultSet
the result contains the five pre-seeded sections product, variant, price,
supplier, supplier_product (still empty dicts when no line targets them,
and unknown sections are created on demand — every line's section key is
present); each line whose target_path contains a '.' places its
default_value at base[section][key] with section the text before the
first '.' and key everything after it, and each line with no '.' lands in
the "product" section under the whole target_path (stated for sets whose
lines occupy pairwise-distinct (section, key) slots, as the uniqueness
constraint on (set, target_path) gives for dotted paths). -/
theorem C8_theorem : ∀ (db : Db) (today org : Nat)
    (ds : ImportGlobalDefaultSet) (out : List (String × PyDict)),
    get_active_default_set db today org = some ds →
    build_base_dict db today org = .ok out →
    (∀ sec ∈ (["product", "variant", "price", "supplier", "supplier_product"] : List String),
       (dictGet out sec).isSome = true
       ∧ ((∀ l ∈ ds.lines, (lineSection l).1 ≠ sec) → dictGet out sec = some []))
    ∧ (∀ line ∈ ds.lines, (dictGet out (lineSection line).1).isSome = true)
    ∧ ((ds.lines.map lineSection).Nodup →
        ∀ line ∈ ds.lines,
          nestedGet2 out (lineSection line).1 (lineSection line).2
            = some line.default_value)
    ∧ (∀ line : ImportGlobalDefaultLine, hasDot line.target_path = false →
        lineSection line = ("product", line.target_path))
    ∧ (∀ line : ImportGlobalDefaultLine, hasDot line.target_path = true →
        lineSection line = splitFirstDot line.target_path) := by
  intro db today org ds out hget hbb
  unfold build_base_dict at hbb
  rw [hget] at hbb
  simp only [Except.ok.injEq] at hbb
  subst hbb
  refine ⟨?_, ?_, ?_, ?_, ?_⟩
  · intro sec hsec
    fin_cases hsec
    · exact ⟨foldPlace_outer_mono _ _ _ rfl, fun h => by rw [foldPlace_untouched _ _ _ h]; rfl⟩
    · exact ⟨foldPlace_outer_mono _ _ _ rfl, fun h => by rw [foldPlace_untouched _ _ _ h]; rfl⟩
    · exact ⟨foldPlace_outer_mono _ _ _ rfl, fun h => by rw [foldPlace_untouched _ _ _ h]; rfl⟩
    · exact ⟨foldPlace_outer_mono _ _ _ rfl, fun h => by rw [foldPlace_untouched _ _ _ h]; rfl⟩
    · exact ⟨foldPlace_outer_mono _ _ _ rfl, fun h => by rw [foldPlace_untouched _ _ _ h]; rfl⟩
  · intro line hmem
    exact foldPlace_outer_of_mem _ _ _ hmem
  · intro hnd line hmem
    exact foldPlace_hit _ _ _ hnd hmem
  · intro line h
    simp [lineSection, h]
  · intro line h
    simp [lineSection, h]

def c8Set : ImportGlobalDefaultSet :=
  { organization := 1, valid_from := 20240101,
    lines := [{ target_path := "variant.origin_code", default_value := .vstr "E" },
              { target_path := "name", default_value := .vstr "D" },
              { target_path := "custom.x", default_value := .vint 5 }] }

def c8Db : Db :=
  { suppliers := [], runs := [], records := [], map_sets := [], default_sets := [c8Set] }

/-- Witness for C8 at a concrete default set with a dotted path, an
undotted path and an unknown section. -/
theorem C8_witness :
    (build_base_dict c8Db 20250601 1
      = .ok [("product", [("name", Value.vstr "D")]),
             ("variant", [("origin_code", Value.vstr "E")]),
             ("price", []), ("supplier", []), ("supplier_product", []),
             ("custom", [("x", Value.vint 5)])])
    ∧ (∀ out, build_base_dict c8Db 20250601 1 = .ok out →
        dictGet out "price" = some []
        ∧ nestedGet2 out "variant" "origin_code" = some (Value.vstr "E")
        ∧ nestedGet2 out "product" "name" = some (Value.vstr "D")
        ∧ nestedGet2 out "custom" "x" = some (Value.vint 5)) := by
  refine ⟨rfl, ?_⟩
  intro out hbb
  have h := C8_theorem c8Db 20250601 1 c8Set out rfl hbb
  refine ⟨(h.1 "price" (by simp)).2 (by decide), ?_, ?_, ?_⟩
  · exact h.2.2.1 (by decide) { target_path := "variant.origin_code", default_value := .vstr "E" }
      (by simp [c8Set])
  · exact h.2.2.1 (by decide) { target_path := "name", default_value := .vstr "D" }
      (by simp [c8Set])
  · exact h.2.2.1 (by decide) { target_path := "custom.x", default_value := .vint 5 }
      (by simp [c8Set])

/-- C7: run-id-scoped reprocessing.  Given an explicit ImportRun id, the
handler first sets `normalized_data` and `error_message_product_import` to
None on every RawRecord of that run — before any processing and
regardless of whether the run's map_set is already bound — and when the
subsequent pass succeeds (zero errors reported), every record of the run
ends with non-null `normalized_data` and a cleared error field. -/
theorem C7_theorem : ∀ (db : Db) (today rid : Nat) (run : ImportRun)
    (db2 : Db) (tr ts te : Nat),
    db.runs.find? (fun r => r.id == rid) = some run →
    (∀ rec ∈ (resetRunRecords db rid).records, rec.import_run = rid →
       rec.normalized_data = none ∧ rec.error_message_product_import = none)
    ∧ handle db today (some rid) none = processRuns today (resetRunRecords db rid) [run]
    ∧ (handle db today (some rid) none = .ok (db2, tr, ts, te) → te = 0 →
       ∀ rec ∈ db2.records, rec.import_run = rid →
         rec.normalized_data.isSome = true ∧ rec.error_message_product_import = none) := by
  intro db today rid run db2 tr ts te hfind
  have hhandle : handle db today (some rid) none
      = processRuns today (resetRunRecords db rid) [run] := by
    simp only [handle]
    rw [hfind]
  refine ⟨fun rec hm hr => resetRunRecords_fields db rid rec hm hr, hhandle, ?_⟩
  intro hok hte rec hmem hrun
  rw [hhandle] at hok
  cases hpr : processRun (resetRunRecords db rid) today run with
  | error e0 =>
    rw [show processRuns today (resetRunRecords db rid) [run]
        = .error e0 by simp only [processRuns, hpr]] at hok
    exact absurd hok (by simp)
  | ok res =>
    obtain ⟨db1, s, e⟩ := res
    rw [show processRuns today (resetRunRecords db rid) [run]
        = .ok (db1, 0 + 1, s + 0, e + 0) by simp only [processRuns, hpr]] at hok
    simp only [Except.ok.injEq, Prod.mk.injEq] at hok
    obtain ⟨hdb, _, _, hte2⟩ := hok
    subst hdb
    have he0 : e = 0 := by omega
    obtain ⟨ms, hres, hms, hrecs, herr⟩ :=
      processRun_ok_elim (resetRunRecords db rid) today run db1 s e hpr
    rw [hrecs] at hmem
    obtain ⟨rec0, hrec0, heq⟩ := List.mem_map.mp hmem
    have hid : run.id = rid := by simpa using List.find?_some hfind
    by_cases htarg : recordTargeted run rec0 = true
    · rw [if_pos htarg] at heq
      have hmf : rec0 ∈ (resetRunRecords db rid).records.filter (recordTargeted run) :=
        List.mem_filter.mpr ⟨hrec0, htarg⟩
      have hcz : ((resetRunRecords db rid).records.filter (recordTargeted run)).countP
          (fun r => !recordOk ms r) = 0 := by
        rw [← herr]; exact he0
      have hok0 : recordOk ms rec0 = true := by
        have h2 := List.countP_eq_zero.mp hcz rec0 hmf
        simpa using h2
      rw [← heq]
      exact normalizeRecord_ok_fields _ _ _ _ hok0
    · rw [if_neg htarg] at heq
      subst heq
      have hfields := resetRunRecords_fields db rid rec0 hrec0 hrun
      have htrue : recordTargeted run rec0 = true := by
        unfold recordTargeted
        rw [hfields.1]
        simp [hrun, hid]
      exact absurd htrue htarg

def c7Run : ImportRun := { id := 5, supplier := 7, source_type := "file", map_set := some 9 }

def c7Ms : ImportMapSet :=
  { id := 9, organization := 1, supplier := 7, source_type := "file", valid_from := 20240101,
    map_details := [{ source_path := "a", target_path := "product.name",
                      target_datatype := "str", transform := none, is_required := false }] }

def c7Rec : ImportRawRecord :=
  { id := 1, import_run := 5, line_number := 1, payload := [("a", .vint 1)],
    normalized_data := some [("a", .vint 1)],
    error_message_product_import := some "old error" }

def c7Db : Db :=
  { suppliers := [7], runs := [c7Run], records := [c7Rec], map_sets := [c7Ms],
    default_sets := [] }

def c7RecDone : ImportRawRecord :=
  { id := 1, import_run := 5, line_number := 1, payload := [("a", .vint 1)],
    normalized_data := some [("product.name", .vstr "1")],
    error_message_product_import := none }

def c7Db2 : Db :=
  { suppliers := [7], runs := [c7Run], records := [c7RecDone], map_sets := [c7Ms],
    default_sets := [] }

/-- Witness for C7 at the spec's reprocessing scenario: a record with
stale `normalized_data = {"a": 1}` and `error_message_product_import =
"old error"` on an already-bound run is reset and then successfully
renormalized. -/
theorem C7_witness :
    ((resetRunRecords c7Db 5).records.all
       (fun rec => rec.normalized_data.isNone && rec.error_message_product_import.isNone))
      = true
    ∧ handle c7Db 20250601 (some 5) none = .ok (c7Db2, 1, 1, 0)
    ∧ c7RecDone.normalized_data.isSome = true
    ∧ c7RecDone.error_message_product_import = none := by
  refine ⟨rfl, rfl, ?_⟩
  exact (C7_theorem c7Db 20250601 5 c7Run c7Db2 1 1 0 rfl).2.2 rfl rfl c7RecDone
    (by simp [c7Db2]) rfl
